import Mathlib

/-!
# SimpleHTTPFileServer: verification of the path-resolution and mutation core

A shallow embedding of `src/SimpleHTTPFileServer.py` (primary, v1.10.1) and
`src/SimpleHTTPFileServer-py3.5.py` (v1.6.0).  Python strings are embedded as
`List Char`, path segments as `List Char`, absolute filesystem paths as lists
of segments, and the filesystem as an association list from absolute paths to
nodes (file / directory / symlink).  Stateful handlers become functions that
thread the filesystem explicitly and report, alongside their outcome, whether
the multipart reader was released (`await reader.release()` executed).
-/

/-- A path segment (one component between separators), as a list of chars. -/
abbrev Seg := List Char

/-- An absolute filesystem path: the list of segments from the root. -/
abbrev AbsPath := List Seg

/-- A Python `str`, embedded as its list of characters. -/
abbrev PyStr := List Char

instance {e a : Type} [DecidableEq e] [DecidableEq a] : DecidableEq (Except e a) :=
  fun x y =>
    match x, y with
    | .error u, .error v =>
      if h : u = v then isTrue (by rw [h]) else isFalse (by simp [h])
    | .error _, .ok _ => isFalse (by simp)
    | .ok _, .error _ => isFalse (by simp)
    | .ok u, .ok v =>
      if h : u = v then isTrue (by rw [h]) else isFalse (by simp [h])

/-- A filesystem node: a regular file with byte content, a directory, or a
symbolic link carrying its target (absolute flag plus segments). -/
inductive Node where
  | file (content : List Nat)
  | dir
  | symlink (isAbs : Bool) (target : List Seg)
deriving DecidableEq

/-- The filesystem: an association list from absolute paths to nodes.
Earlier entries shadow later ones (there is at most one live node per path). -/
abbrev FS := List (AbsPath × Node)

/-- Look up the node stored at a path (first matching entry). -/
def lookupFS : FS → AbsPath → Option Node
  | [], _ => none
  | (k, v) :: rest, p => if k = p then some v else lookupFS rest p

/-- Remove every entry stored exactly at `p` (used by `unlink`). -/
def removeKey (fs : FS) (p : AbsPath) : FS :=
  fs.filter (fun e => decide (e.1 ≠ p))

/-- Create or overwrite the regular file at `p` with `content`. -/
def setFile (fs : FS) (p : AbsPath) (content : List Nat) : FS :=
  (p, Node.file content) :: removeKey fs p

/-- Split a string on `'/'`; adjacent separators produce empty pieces,
mirroring `str.split('/')`. -/
def splitSlash : List Char → List (List Char)
  | [] => [[]]
  | c :: rest =>
    match splitSlash rest with
    | [] => [[]]
    | t :: ts => if c = '/' then [] :: t :: ts else (c :: t) :: ts

/-- The non-anchor parts of `pathlib.PurePosixPath(s)`: split on `'/'`,
dropping empty pieces and `'.'` components (pathlib normalizes both away). -/
def pyParseSegs (s : PyStr) : List Seg :=
  (splitSlash s).filter (fun t => decide (t ≠ [] ∧ t ≠ ['.']))

/-- Whether `pathlib.PurePosixPath(s).anchor` is non-empty: the string starts
with a separator. -/
def pyAnchor : PyStr → Bool
  | [] => false
  | c :: _ => c = '/'

/-- `len(pathlib.PurePosixPath(s).parts)`: the anchor, when present, counts as
one part, followed by the normalized segments. -/
def pyPartsLen (s : PyStr) : Nat :=
  (if pyAnchor s then 1 else 0) + (pyParseSegs s).length

/-- The single-segment test shared by the mutation handlers:
`len(f.parts) != 1 or f.anchor` (True means the input is rejected). -/
def illegalSingleSeg (s : PyStr) : Bool :=
  pyPartsLen s ≠ 1 || pyAnchor s

/-- Errors produced by `Path.resolve`: `FileNotFoundError` (strict mode, a
component is absent) or any other `OSError`/`RuntimeError` (symlink loops). -/
inductive ResolveErr where
  | notFound
  | other
deriving DecidableEq

/-- Embedding of CPython's `pathlib` `resolve` walk.  `acc` is the resolved
prefix built so far, `comps` the components still to process.  One unit of
fuel is spent per processed component; symlink targets are spliced in front of
the remaining components (absolute targets reset the accumulator).  Running
out of fuel stands in for the interpreter's symlink-loop detection, which
raises an error that `_local_path_check` maps to Forbidden.
  * empty and `'.'` components are skipped;
  * `'..'` drops the last resolved component (the root is its own parent);
  * a symlink component is expanded; a missing component raises
    `FileNotFoundError` in strict mode and is kept lexically otherwise. -/
def resolveLoop (fs : FS) : Nat → AbsPath → List Seg → Bool → Except ResolveErr AbsPath
  | 0, _, _, _ => .error .other
  | _ + 1, acc, [], _ => .ok acc
  | fuel + 1, acc, c :: rest, strict =>
    if c = [] ∨ c = ['.'] then
      resolveLoop fs fuel acc rest strict
    else if c = ['.', '.'] then
      resolveLoop fs fuel acc.dropLast rest strict
    else
      match lookupFS fs (acc ++ [c]) with
      | some (Node.symlink isAbs target) =>
        resolveLoop fs fuel (if isAbs then [] else acc) (target ++ rest) strict
      | some _ => resolveLoop fs fuel (acc ++ [c]) rest strict
      | none =>
        if strict then .error .notFound
        else resolveLoop fs fuel (acc ++ [c]) rest strict

/-- Fuel budget for `pyResolve`; large enough for every realistic path. -/
def pyFuel : Nat := 1000

/-- `Path.resolve(strict=flag)` on an absolute path given as components. -/
def pyResolve (fs : FS) (comps : List Seg) (strict : Bool) : Except ResolveErr AbsPath :=
  resolveLoop fs pyFuel [] comps strict

/-- Errors with which `_local_path_check` fails: `web.HTTPNotFound` or
`web.HTTPForbidden`. -/
inductive PErr where
  | notFound
  | forbidden
deriving DecidableEq

/-- Embedding of `Server._local_path_check(path, root, strict_flag)`:
resolve the candidate path, map `FileNotFoundError` to NotFound and every
other exception to Forbidden, then require `res.relative_to(root)` to
succeed — on absolute paths that is exactly "`root`'s segments are a prefix
of `res`'s segments" — mapping a failure to Forbidden. -/
def localPathCheck (fs : FS) (comps : List Seg) (root : AbsPath) (strict : Bool) :
    Except PErr AbsPath :=
  match pyResolve fs comps strict with
  | .error .notFound => .error .notFound
  | .error .other => .error .forbidden
  | .ok res => if root.isPrefixOf res then .ok res else .error .forbidden

/-- A registered share target: a filesystem root captured at registration, or
an opaque sub-application handler (identified by a number in the model). -/
inductive Target where
  | fsroot (p : AbsPath)
  | handler (id : Nat)
deriving DecidableEq

/-- The server state relevant to routing: URL prefix, the insertion-ordered
share table `_fd`, the read-only set `_ro` and the listable set `_ld`. -/
structure Srv where
  pfx : PyStr
  fd : List (PyStr × Target)
  ro : List PyStr
  ld : List PyStr

/-- HTTP-exception outcomes raised during routing. -/
inductive HErr where
  | movedPermanently (loc : PyStr)
  | notFound
  | forbidden
  | methodNotAllowed (allow : List PyStr)
  | assertFailed
deriving DecidableEq

/-- Successful `_web_path` results: a sub-app handler, or the tuple
`(share_name, root, readonly, rest)` (with `root = none` for the home page;
`rest` already parsed into its non-anchor segments). -/
inductive WebRes where
  | app (id : Nat)
  | route (shareName : PyStr) (root : Option AbsPath) (readonly : Bool) (rest : List Seg)
deriving DecidableEq

/-- `str.partition('/')`: the text before the first separator, the separator
itself (empty when absent), and the text after it. -/
def partitionSlash : PyStr → PyStr × PyStr × PyStr
  | [] => ([], [], [])
  | c :: rest =>
    if c = '/' then ([], ['/'], rest)
    else
      match partitionSlash rest with
      | (a, b, r) => (c :: a, b, r)

/-- Dictionary lookup in the `_fd` share table. -/
def lookupShare : List (PyStr × Target) → PyStr → Option Target
  | [], _ => none
  | (k, v) :: rest, n => if k = n then some v else lookupShare rest n

/-- Helper for `collapseSlashes`: the flag records whether the previous
emitted character was a separator (a further separator is then dropped). -/
def collapseAux : Bool → PyStr → PyStr
  | _, [] => []
  | prevSlash, c :: rest =>
    if c = '/' then
      if prevSlash then collapseAux true rest
      else '/' :: collapseAux true rest
    else c :: collapseAux false rest

/-- `re.sub('/{2,}', '/', s)`: collapse every run of separators to one. -/
def collapseSlashes (s : PyStr) : PyStr :=
  collapseAux false s

/-- The tail of `_web_path` after the share root has been determined
(lines 246–255 of the source): compute the effective read-only flag, enforce
the method rules, then parse the remainder and reject an absolute anchor. -/
def routeTail (sv : Srv) (shareName : PyStr) (root : Option AbsPath)
    (restStr : PyStr) (method : Option PyStr) : Except HErr WebRes :=
  let readonly := root.isNone || sv.ro.contains shareName
  match method with
  | some m =>
    if (root.isNone || readonly) && m != "GET".data then
      .error (.methodNotAllowed ["GET".data])
    else if m != "GET".data && m != "POST".data then
      .error (.methodNotAllowed ["GET".data, "POST".data])
    else if pyAnchor restStr then .error .forbidden
    else .ok (.route shareName root readonly (pyParseSegs restStr))
  | none =>
    if pyAnchor restStr then .error .forbidden
    else .ok (.route shareName root readonly (pyParseSegs restStr))

/-- Embedding of `Server._web_path(pathstr, method)`: redirect when the
configured prefix is missing, split the remainder at the first separator into
share name and rest, resolve the share (home page for an empty name, NotFound
for an unknown one, sub-app handlers returned as-is), then apply
`routeTail`. -/
def webPath (sv : Srv) (pathstr : PyStr) (method : Option PyStr) : Except HErr WebRes :=
  if ¬ sv.pfx.isPrefixOf pathstr then .error (.movedPermanently sv.pfx)
  else
    match partitionSlash (pathstr.drop sv.pfx.length) with
    | (shareName, sep, rest) =>
      if shareName = [] then
        if sep = [] ∧ rest = [] then routeTail sv [] none rest method
        else .error .assertFailed
      else
        match lookupShare sv.fd shareName with
        | none => .error .notFound
        | some (.handler i) => .ok (.app i)
        | some (.fsroot r) => routeTail sv shareName (some r) rest method

/-- Does an entry (of any kind) exist at `p`?  (`Path.exists` on an already
resolved path.) -/
def fsExists (fs : FS) (p : AbsPath) : Bool :=
  (lookupFS fs p).isSome

/-- Is the node at `p` a directory? (`Path.is_dir` on a resolved path.) -/
def isDirAt (fs : FS) (p : AbsPath) : Bool :=
  match lookupFS fs p with
  | some Node.dir => true
  | _ => false

/-- Is the node at `p` a regular file? (`Path.is_file` on a resolved path.) -/
def isFileAt (fs : FS) (p : AbsPath) : Bool :=
  match lookupFS fs p with
  | some (Node.file _) => true
  | _ => false

/-- `shutil.rmtree`: remove the node at `p` and every descendant. -/
def fsRmtree (fs : FS) (p : AbsPath) : FS :=
  fs.filter (fun e => !(p.isPrefixOf e.1))

/-- `newp.unlink()` wrapped in `try/except: pass`: remove a file or symlink
entry; a missing entry or a directory raises, and the exception is
swallowed leaving the filesystem unchanged. -/
def tryUnlink (fs : FS) (p : AbsPath) : FS :=
  match lookupFS fs p with
  | some (Node.file _) => removeKey fs p
  | some (Node.symlink _ _) => removeKey fs p
  | _ => fs

/-- `newp.mkdir()`: fails (`none`) when the target already exists or the
parent directory is absent; otherwise records the new directory. -/
def fsMkdir (fs : FS) (p : AbsPath) : Option FS :=
  if (lookupFS fs p).isSome then none
  else if p = [] then none
  else if lookupFS fs p.dropLast = some Node.dir then some ((p, Node.dir) :: fs)
  else none

/-- `os.rename` / `shutil.move` of a resolved source onto a non-existing
resolved destination: every entry at or below `src` is re-keyed below `dst`
in one atomic step. -/
def fsRename (fs : FS) (src dst : AbsPath) : FS :=
  (fs.filter (fun e => src.isPrefixOf e.1)).map
      (fun e => (dst ++ e.1.drop src.length, e.2))
    ++ fs.filter (fun e => !(src.isPrefixOf e.1))

/-- `shutil.copytree(symlinks=True)`: duplicate the subtree at `src` below
`dst`, preserving node kinds (symlinks stay symlinks). -/
def fsCopyTree (fs : FS) (src dst : AbsPath) : FS :=
  (fs.filter (fun e => src.isPrefixOf e.1)).map
      (fun e => (dst ++ e.1.drop src.length, e.2))
    ++ fs

/-- `shutil.copy2(follow_symlinks=False)`: duplicate the single entry at
`src` to `dst`. -/
def fsCopyEntry (fs : FS) (src dst : AbsPath) : FS :=
  match lookupFS fs src with
  | some n => (dst, n) :: fs
  | none => fs

/-- `newp.open('wb')`: truncating create.  Fails when the target is a
directory or dangling-symlink slot, or when the parent directory is absent
(`IsADirectoryError` / `FileNotFoundError`, caught by the upload handler). -/
def fsOpenWrite (fs : FS) (p : AbsPath) : Option FS :=
  match lookupFS fs p with
  | some Node.dir => none
  | some (Node.symlink _ _) => none
  | some (Node.file _) => some (setFile fs p [])
  | none =>
    if p = [] then none
    else if lookupFS fs p.dropLast = some Node.dir then some (setFile fs p [])
    else none

/-- Outcomes of `_post_mkdir`; the constructors stand for the source's
return strings `'Illegal input'`, `'Create DIR Failed: {name}'` and
`'DIR {name} Created.'`. -/
inductive MkOut where
  | illegalInput
  | createFailed (n : PyStr)
  | created (n : PyStr)
deriving DecidableEq

/-- Embedding of `Server._post_mkdir`: reject a multi-segment or anchored
name, resolve the target in creation mode, create the directory; every
failure reports `'Create DIR Failed'`; the reader is released on all paths
(`finally`). -/
def postMkdir (fs : FS) (path root : AbsPath) (name : PyStr) : MkOut × FS × Bool :=
  if illegalSingleSeg name then (.illegalInput, fs, true)
  else
    match localPathCheck fs (path ++ pyParseSegs name) root false with
    | .error _ => (.createFailed name, fs, true)
    | .ok newp =>
      match fsMkdir fs newp with
      | none => (.createFailed name, fs, true)
      | some fs' => (.created name, fs', true)

/-- Outcomes of `_post_delete`: `'Illegal input.'`, `'Deletion Failed:
{name}'`, `'Deleted: {name}'`. -/
inductive DelOut where
  | illegalInput
  | deletionFailed (n : PyStr)
  | deleted (n : PyStr)
deriving DecidableEq

/-- Embedding of `Server._post_delete`: reject a multi-segment or anchored
name, resolve the target in must-exist mode, then unlink a symlink or file
and `rmtree` a directory (a node of neither kind falls through to the
success message untouched); the reader is released on all paths. -/
def postDelete (fs : FS) (path root : AbsPath) (toDel : PyStr) : DelOut × FS × Bool :=
  if illegalSingleSeg toDel then (.illegalInput, fs, true)
  else
    match localPathCheck fs (path ++ pyParseSegs toDel) root true with
    | .error _ => (.deletionFailed toDel, fs, true)
    | .ok newp =>
      match lookupFS fs newp with
      | some (Node.symlink _ _) => (.deleted toDel, removeKey fs newp, true)
      | some (Node.file _) => (.deleted toDel, removeKey fs newp, true)
      | some Node.dir => (.deleted toDel, fsRmtree fs newp, true)
      | none => (.deleted toDel, fs, true)

/-- Outcomes of `_post_rename`: `'POST data error.'`, `'Illegal input.'`,
`'Target exists.'`, `'Rename Failed: {fr}'`, `'Renamed: {to}'`. -/
inductive RenOut where
  | postDataError
  | illegalInput
  | targetExists
  | renameFailed (n : PyStr)
  | renamed (n : PyStr)
deriving DecidableEq

/-- Embedding of `Server._post_rename`: the second multipart field must be
named `'4'`; both names must be single non-anchored segments; `fr` is
resolved in must-exist mode and `to` in creation mode; an existing
destination aborts with `'Target exists.'`; otherwise one atomic rename.
The reader is released on all paths (`finally`). -/
def postRename (fs : FS) (path root : AbsPath) (fr : PyStr)
    (second : Option (PyStr × PyStr)) : RenOut × FS × Bool :=
  match second with
  | none => (.postDataError, fs, true)
  | some (n, toS) =>
    if n ≠ "4".data then (.postDataError, fs, true)
    else if illegalSingleSeg fr || illegalSingleSeg toS then (.illegalInput, fs, true)
    else
      match localPathCheck fs (path ++ pyParseSegs fr) root true with
      | .error _ => (.renameFailed fr, fs, true)
      | .ok newfr =>
        match localPathCheck fs (path ++ pyParseSegs toS) root false with
        | .error _ => (.renameFailed fr, fs, true)
        | .ok newto =>
          if fsExists fs newto then (.targetExists, fs, true)
          else (.renamed toS, fsRename fs newfr newto, true)

/-- One multipart form field: its form name, and (for uploads) the client
filename with the byte chunks streamed for it; `failAt = some i` means the
transfer of that file raises while handling chunk `i` (mid-write failure),
`none` that it completes. Text fields carry `content`. -/
structure FormField where
  fieldName : PyStr
  filename : PyStr
  content : PyStr
  chunks : List (List Nat)
  failAt : Option Nat
deriving DecidableEq

/-- One line of the upload report: `'Successful: {filename}'` or
`'Failed: {filename}'`. -/
inductive UpItem where
  | success (n : PyStr)
  | failed (n : PyStr)
deriving DecidableEq

/-- Result of `_post_upload`: the early return `'Illegal filename'`, or the
joined per-file report. -/
inductive UpOut where
  | illegalFilename
  | report (items : List UpItem)
deriving DecidableEq

/-- `newp.unlink()` in the upload failure path when `newp` still holds its
binding from a *previous* loop iteration (or none at all, raising a caught
`NameError`). -/
def staleUnlink (fs : FS) : Option AbsPath → FS
  | none => fs
  | some p => tryUnlink fs p

/-- The `while` loop of `Server._post_upload`.  `np?` models the Python
binding of `newp` carried over from earlier iterations.  Per field: stop when
the field is exhausted or not named `'0'` (then release and report); return
`'Illegal filename'` *without releasing the reader* for a multi-segment or
anchored filename; otherwise resolve in creation mode, open/truncate, stream
chunks.  On any failure: record `'Failed'`, unlink whatever `newp` currently
denotes (swallowing errors), stop the batch, release, report.  On success:
record `'Successful'` and continue with the next field. -/
def uploadLoop (path root : AbsPath) :
    FS → Option AbsPath → List UpItem → List FormField → UpOut × FS × Bool
  | fs, _, acc, [] => (.report acc, fs, true)
  | fs, np?, acc, f :: rest =>
    if f.fieldName ≠ "0".data then (.report acc, fs, true)
    else if illegalSingleSeg f.filename then (.illegalFilename, fs, false)
    else
      match localPathCheck fs (path ++ pyParseSegs f.filename) root false with
      | .error _ => (.report (acc ++ [.failed f.filename]), staleUnlink fs np?, true)
      | .ok newp =>
        match fsOpenWrite fs newp with
        | none => (.report (acc ++ [.failed f.filename]), tryUnlink fs newp, true)
        | some fs1 =>
          match f.failAt with
          | some i =>
            (.report (acc ++ [.failed f.filename]),
              tryUnlink (setFile fs1 newp ((f.chunks.take i).flatten)) newp, true)
          | none =>
            uploadLoop path root (setFile fs1 newp f.chunks.flatten) (some newp)
              (acc ++ [.success f.filename]) rest

/-- Embedding of `Server._post_upload` (the loop entered with the first
field already read). -/
def postUpload (fs : FS) (path root : AbsPath) (fields : List FormField) :
    UpOut × FS × Bool :=
  uploadLoop path root fs none [] fields

/-- The leading portion of `base` up to and including its last separator
(what `urljoin` keeps of the base path for a relative reference). -/
def dirnameSlash (s : PyStr) : PyStr :=
  (s.reverse.dropWhile (fun c => decide (c ≠ '/'))).reverse

/-- RFC 3986 `remove_dot_segments` over already-split segments: empty and
`'.'` pieces vanish, `'..'` pops the last kept segment. -/
def normSegs : List Seg → List Seg → List Seg
  | stack, [] => stack
  | stack, s :: rest =>
    if s = [] ∨ s = ['.'] then normSegs stack rest
    else if s = ['.', '.'] then normSegs stack.dropLast rest
    else normSegs (stack ++ [s]) rest

/-- `urllib.parse.urljoin(base, src)` restricted to scheme-less, query-less
path references (the only form `_post_copy_move` produces: `base` is the
request path, absolute): an empty reference yields the base; an anchored
reference replaces the path; otherwise the reference is merged onto the
base's directory; dot segments are then removed, and a trailing separator is
kept when the merged path ends in `/`, `.` or `..`. -/
def pyUrljoin (base src : PyStr) : PyStr :=
  if src = [] then base
  else
    let merged := if pyAnchor src then src else dirnameSlash base ++ src
    let segs := splitSlash merged
    let norm := normSegs [] segs
    let trailing : Bool :=
      match segs.getLast? with
      | some s => decide (s = [] ∨ s = ['.'] ∨ s = ['.', '.'])
      | none => false
    if norm = [] then ['/']
    else '/' :: List.intercalate ['/'] norm ++ (if trailing then ['/'] else [])

/-- Outcomes of `_post_copy_move`: `'POST data error.'`, `'Invalid source'`,
`'Target read-only. Move not allowed.'`, `'Cannot move shared entry.'`,
`'Target exists'`, `'Paste failed: {src}'`, `'Pasted: {name}'`; `errEscaped`
stands for the corner case where the second field is missing, the
`field.name` access raises on `None`, and the `except` block itself raises
`NameError` on the unbound `src` (the exception escapes the handler, the
reader still being released by `finally`). -/
inductive CMOut where
  | postDataError
  | invalidSource
  | targetReadOnly
  | cannotMoveShared
  | targetExists
  | pasteFailed (src : PyStr)
  | pasted (n : PyStr)
  | errEscaped
deriving DecidableEq

/-- Tail of `_post_copy_move` once the source entry `p` and its display
name are fixed: resolve the destination under the current directory in
creation mode, refuse an existing destination, then copy (tree-aware) or
move atomically. -/
def finishPaste (fs : FS) (path root : AbsPath) (methodFlag src : PyStr)
    (p : AbsPath) (name : PyStr) : CMOut × FS × Bool :=
  match localPathCheck fs (path ++ pyParseSegs name) root false with
  | .error _ => (.pasteFailed src, fs, true)
  | .ok t =>
    if fsExists fs t then (.targetExists, fs, true)
    else
      match lookupFS fs p with
      | some Node.dir =>
        if methodFlag = "cp".data then (.pasted name, fsCopyTree fs p t, true)
        else (.pasted name, fsRename fs p t, true)
      | _ =>
        if methodFlag = "cp".data then (.pasted name, fsCopyEntry fs p t, true)
        else (.pasted name, fsRename fs p t, true)

/-- Embedding of `Server._post_copy_move` (POSIX host, so `_windows_check`
is a no-op): validate the method flag (`cp`/`mv`) and the `'6'` source
field; join the source URL onto the request path, collapse separator runs
and route it through `_web_path` (its HTTP exceptions are caught and
reported as `'Paste failed'`); a sub-app source is `'Invalid source'`; a
read-only source share forbids `mv` before anything else is touched; the
home page root (`None`) raises and is caught; a share root source must be a
dir or file and cannot be moved; a sub-path source is resolved must-exist
against *its own* share root; finally the paste is performed. -/
def postCopyMove (sv : Srv) (fs : FS) (reqPath : PyStr) (path root : AbsPath)
    (methodFlag : PyStr) (second : Option (PyStr × PyStr)) : CMOut × FS × Bool :=
  if methodFlag ≠ "cp".data ∧ methodFlag ≠ "mv".data then (.postDataError, fs, true)
  else match second with
  | none => (.errEscaped, fs, true)
  | some (n, src) =>
    if n ≠ "6".data then (.postDataError, fs, true)
    else
      match webPath sv (collapseSlashes (pyUrljoin reqPath src)) none with
      | .error _ => (.pasteFailed src, fs, true)
      | .ok (.app _) => (.invalidSource, fs, true)
      | .ok (.route rname root2? ro rest) =>
        if ro ∧ methodFlag = "mv".data then (.targetReadOnly, fs, true)
        else
          match root2? with
          | none => (.pasteFailed src, fs, true)
          | some root2 =>
            if rest = [] then
              match lookupFS fs root2 with
              | some Node.dir =>
                if methodFlag = "mv".data then (.cannotMoveShared, fs, true)
                else finishPaste fs path root methodFlag src root2 rname
              | some (Node.file _) =>
                if methodFlag = "mv".data then (.cannotMoveShared, fs, true)
                else finishPaste fs path root methodFlag src root2 rname
              | _ => (.pasteFailed src, fs, true)
            else
              match localPathCheck fs (root2 ++ rest) root2 true with
              | .error _ => (.pasteFailed src, fs, true)
              | .ok p =>
                match lookupFS fs p with
                | some Node.dir =>
                  finishPaste fs path root methodFlag src p (p.getLastD [])
                | some (Node.file _) =>
                  finishPaste fs path root methodFlag src p (p.getLastD [])
                | _ => (.pasteFailed src, fs, true)

/-- Embedding of `Server._size_for_human(size, binary, precision=2)` *as it
stands in the source*.  The function body is broken three ways: it is
declared without a `self` parameter yet called as a bound method (so the
server instance arrives as `size`); its `while base < result and unit < 4`
loop never increments `unit`; and its return expression
`f"{.{precision}f} {suffix}"` is not valid Python at all (SyntaxError in the
f-string).  Every call therefore raises instead of producing text, which the
embedding renders as a failure. -/
def sizeForHuman (_size : Nat) (_binary : Bool) : Except Unit PyStr :=
  .error ()

/-- Lexicographic (code-point) comparison of Python strings, as used by
`sorted`. -/
def lexLe : PyStr → PyStr → Bool
  | [], _ => true
  | _ :: _, [] => false
  | a :: as, b :: bs => if a = b then lexLe as bs else decide (a < b)

/-- Insertion into a lexicographically sorted list of names. -/
def insertName (x : PyStr) : List PyStr → List PyStr
  | [] => [x]
  | y :: ys => if lexLe x y then x :: y :: ys else y :: insertName x ys

/-- `sorted` on a list of names. -/
def sortNames (l : List PyStr) : List PyStr :=
  l.foldr insertName []

/-- Insertion into a list of `(name, size)` rows sorted by name (names are
dict keys, hence unique). -/
def insertRow (x : PyStr × Nat) : List (PyStr × Nat) → List (PyStr × Nat)
  | [] => [x]
  | y :: ys => if lexLe x.1 y.1 then x :: y :: ys else y :: insertRow x ys

/-- `sorted(body[2].items())`. -/
def sortRows (l : List (PyStr × Nat)) : List (PyStr × Nat) :=
  l.foldr insertRow []

/-- `path.iterdir()` paired with each child's node: the entries exactly one
segment below `p`, in filesystem (OS) order, with the child's final
segment as its name. -/
def childEntries (fs : FS) (p : AbsPath) : List (Seg × Node) :=
  fs.filterMap (fun e =>
    if e.1.length = p.length + 1 ∧ p.isPrefixOf e.1 then some (e.1.getLastD [], e.2)
    else none)

/-- Failures of `_get_dir`: the missing-trailing-slash redirect, or the
exception raised by the broken `_size_for_human` while rendering the first
file row. -/
inductive GErr where
  | moved
  | crash
deriving DecidableEq

/-- Render the file rows: each one calls `self._size_for_human(size, True)`;
since that call always raises, the first file in the listing aborts the
page. -/
def fileRows : List (PyStr × Nat) → Except Unit (List (PyStr × PyStr))
  | [] => .ok []
  | (n, sz) :: rest =>
    match sizeForHuman sz true with
    | .error e => .error e
    | .ok s =>
      match fileRows rest with
      | .error e => .error e
      | .ok rs => .ok ((n, s) :: rs)

/-- Embedding of `Server._get_dir` reduced to its table body: redirect when
the request path lacks its trailing separator; always emit the `../` row;
when the share is listable, triage the children into symlinks, directories
and files (a child of no recognized kind is skipped), sort each group
lexicographically, and emit symlinks (`name@`/`LNK`), then directories
(`name/`/`DIR`), then files (name with humanized size) — the last group
crashing on the broken `_size_for_human`. -/
def getDir (sv : Srv) (fs : FS) (endsSlash : Bool) (rname : PyStr)
    (path : AbsPath) : Except GErr (List (PyStr × PyStr)) :=
  if ¬ endsSlash then .error .moved
  else
    let listed := if sv.ld.contains rname then childEntries fs path else []
    let links := sortNames (listed.filterMap fun e =>
      match e.2 with | Node.symlink _ _ => some e.1 | _ => none)
    let dirs := sortNames (listed.filterMap fun e =>
      match e.2 with | Node.dir => some e.1 | _ => none)
    let files := sortRows (listed.filterMap fun e =>
      match e.2 with | Node.file c => some (e.1, c.length) | _ => none)
    match fileRows files with
    | .error _ => .error .crash
    | .ok frows =>
      .ok ((("../".data, "DIR".data)) ::
        (links.map fun n => (n ++ ['@'], "LNK".data)) ++
        (dirs.map fun n => (n ++ ['/'], "DIR".data)) ++ frows)

/-- The result of `_post_handler`, tagged by which mutation ran; `'6'` as
first field returns `'Select: Copy or Move.'` (without touching the
reader). -/
inductive PRes where
  | upload (o : UpOut)
  | mkdir (o : MkOut)
  | delete (o : DelOut)
  | rename (o : RenOut)
  | copyMove (o : CMOut)
  | selectCopyOrMove
deriving DecidableEq

/-- Embedding of `Server._post_handler`: a non-multipart body or a non-dir
target is `HTTPBadRequest` (as is an absent or unrecognized first field);
otherwise dispatch on the first field's name.  The second component of the
result is the filesystem afterwards, the third whether the reader was
released. -/
def postHandler (sv : Srv) (fs : FS) (reqPath : PyStr) (path root : AbsPath)
    (isMultipart : Bool) (fields : List FormField) :
    Except Unit (PRes × FS × Bool) :=
  if ¬ isMultipart ∨ ¬ isDirAt fs path then .error ()
  else match fields with
  | [] => .error ()
  | f :: rest =>
    if f.fieldName = "0".data then
      match postUpload fs path root (f :: rest) with
      | (o, fs', rel) => .ok (.upload o, fs', rel)
    else if f.fieldName = "1".data then
      match postMkdir fs path root f.content with
      | (o, fs', rel) => .ok (.mkdir o, fs', rel)
    else if f.fieldName = "2".data then
      match postDelete fs path root f.content with
      | (o, fs', rel) => .ok (.delete o, fs', rel)
    else if f.fieldName = "3".data then
      match postRename fs path root f.content
          ((rest.head?).map fun g => (g.fieldName, g.content)) with
      | (o, fs', rel) => .ok (.rename o, fs', rel)
    else if f.fieldName = "5".data then
      match postCopyMove sv fs reqPath path root f.content
          ((rest.head?).map fun g => (g.fieldName, g.content)) with
      | (o, fs', rel) => .ok (.copyMove o, fs', rel)
    else if f.fieldName = "6".data then .ok (.selectCopyOrMove, fs, false)
    else .error ()

/-- Request-level failures of `_request_handler`: routing exceptions,
`_local_path_check` exceptions, `HTTPBadRequest` (query string present,
malformed POST, or a generic exception escaping a handler), the `NameError`
on the undefined variable `method` at the non-GET-on-file branch (surfacing
as 500 from the HTTP layer), the listing crash from `_size_for_human`
(likewise 500), and the explicit `HTTPInternalServerError`. -/
inductive RErr where
  | herr (e : HErr)
  | perr (e : PErr)
  | badRequest
  | nameErrorUndefinedMethod
  | listingCrash
  | internalServerError
deriving DecidableEq

/-- Successful pages of `_request_handler`. -/
inductive Page where
  | appPage (id : Nat)
  | mainPage
  | dirPage (post : Option PRes) (rows : List (PyStr × PyStr))
  | filePage (p : AbsPath)
deriving DecidableEq

/-- Does the request path end with a separator? -/
def endsWithSlash (s : PyStr) : Bool :=
  match s.getLast? with
  | some c => c = '/'
  | none => false

/-- Embedding of `Server._request_handler` (no HTTPS redirect configured,
POSIX host): reject a query string; redirect when collapsing separator runs
changes the path; route through `_web_path` with the method; serve the home
page when no share is named; resolve the remainder in must-exist mode; on a
directory run the POST handler when asked (its `HTTPBadRequest` and any
escaped exception both surface as BadRequest) and render the listing; on a
file, a non-GET method hits the `raise web.HTTPMethodNotAllowed(method,
['GET'])` line whose `method` variable is undefined — a `NameError`, not a
405; anything else is `HTTPInternalServerError`. -/
def requestHandler (sv : Srv) (fs : FS) (method reqPath queryStr : PyStr)
    (isMultipart : Bool) (fields : List FormField) : Except RErr Page × FS :=
  if queryStr ≠ [] then (.error .badRequest, fs)
  else if collapseSlashes reqPath ≠ reqPath then
    (.error (.herr (.movedPermanently (collapseSlashes reqPath))), fs)
  else
    match webPath sv reqPath (some method) with
    | .error e => (.error (.herr e), fs)
    | .ok (.app i) => (.ok (.appPage i), fs)
    | .ok (.route rname root? _ro rest) =>
      match root? with
      | none => (.ok .mainPage, fs)
      | some root =>
        match localPathCheck fs (root ++ rest) root true with
        | .error e => (.error (.perr e), fs)
        | .ok path =>
          if isDirAt fs path then
            if method = "POST".data then
              match postHandler sv fs reqPath path root isMultipart fields with
              | .error () => (.error .badRequest, fs)
              | .ok (.copyMove .errEscaped, fs', _) => (.error .badRequest, fs')
              | .ok (pres, fs', _) =>
                match getDir sv fs' (endsWithSlash reqPath) rname path with
                | .error .moved =>
                  (.error (.herr (.movedPermanently (reqPath ++ ['/']))), fs')
                | .error .crash => (.error .listingCrash, fs')
                | .ok rows => (.ok (.dirPage (some pres) rows), fs')
            else
              match getDir sv fs (endsWithSlash reqPath) rname path with
              | .error .moved =>
                (.error (.herr (.movedPermanently (reqPath ++ ['/']))), fs)
              | .error .crash => (.error .listingCrash, fs)
              | .ok rows => (.ok (.dirPage none rows), fs)
          else if isFileAt fs path then
            if method ≠ "GET".data then (.error .nameErrorUndefinedMethod, fs)
            else (.ok (.filePage path), fs)
          else (.error .internalServerError, fs)

/-- A demonstration server: prefix `/`, a read-only share `ro`, writable
shares `w` and `d`, all listable. -/
def svDemo : Srv :=
  ⟨"/".data,
   [("ro".data, .fsroot ["ro".data]), ("w".data, .fsroot ["w".data]),
    ("d".data, .fsroot ["d".data])],
   ["ro".data],
   ["ro".data, "w".data, "d".data]⟩

/-- A demonstration filesystem matching `svDemo`'s roots. -/
def fsDemo : FS :=
  [(["ro".data], Node.dir), (["ro".data, "f".data], Node.file [7]),
   (["w".data], Node.dir), (["w".data, "g".data], Node.file [1, 2]),
   (["d".data], Node.dir), (["d".data, "x".data], Node.file [3])]

/-- A root `/r` holding `/r/sub` with one file, for the `'..'` scenario. -/
def fsSub : FS :=
  [(["r".data], Node.dir), (["r".data, "sub".data], Node.dir),
   (["r".data, "sub".data, "x".data], Node.file [1])]

/-- Every nonempty prefix of `path` is a directory of `fs` (so the resolve
walk passes through it untouched). -/
def cleanPath (fs : FS) (path : AbsPath) : Prop :=
  ∀ q ∈ path.inits, q ≠ [] → lookupFS fs q = some Node.dir

/-- `path` contains no empty, `'.'` or `'..'` component (true of any
already-resolved directory path). -/
def plainSegs (path : AbsPath) : Prop :=
  ∀ s ∈ path, s ≠ [] ∧ s ≠ ['.'] ∧ s ≠ ['.', '.']

/-- The single segment of a legal (single-part, non-anchored) name. -/
def fileSeg (f : FormField) : Seg :=
  (pyParseSegs f.filename).headD []

/-- A benign upload field: the form field is named `'0'`, its filename is a
single non-anchored part, and that part is not `'..'`. -/
def okField (f : FormField) : Prop :=
  f.fieldName = "0".data ∧ illegalSingleSeg f.filename = false ∧
    fileSeg f ≠ ['.', '.']

instance (fs : FS) (path : AbsPath) : Decidable (cleanPath fs path) :=
  inferInstanceAs (Decidable (∀ q ∈ path.inits, q ≠ [] →
    lookupFS fs q = some Node.dir))

instance (path : AbsPath) : Decidable (plainSegs path) :=
  inferInstanceAs (Decidable (∀ s ∈ path, s ≠ [] ∧ s ≠ ['.'] ∧ s ≠ ['.', '.']))

instance (f : FormField) : Decidable (okField f) :=
  inferInstanceAs (Decidable (f.fieldName = "0".data ∧
    illegalSingleSeg f.filename = false ∧ fileSeg f ≠ ['.', '.']))

/-- C1 — Containment invariant of `_local_path_check`, both modes: a
successful result is the fully resolved candidate path, and the registered
root is a component-wise prefix of it (the root itself or a descendant);
a path outside the root is never returned.  The containment judgement is
`relative_to` on the resolved path, i.e. component containment, not a string
prefix test. -/
theorem localPathCheck_containment (fs : FS) (comps : List Seg) (root : AbsPath)
    (strict : Bool) (res : AbsPath)
    (h : localPathCheck fs comps root strict = .ok res) :
    pyResolve fs comps strict = .ok res ∧ root <+: res := by
  unfold localPathCheck at h
  cases hr : pyResolve fs comps strict with
  | error e =>
    rw [hr] at h
    cases e <;> simp at h
  | ok r =>
    rw [hr] at h
    by_cases hp : root.isPrefixOf r
    · simp [hp] at h
      subst h
      exact ⟨rfl, List.isPrefixOf_iff_prefix.mp hp⟩
    · simp [hp] at h

/-- Witness for C1 at a concrete input: filesystem `{/r ↦ dir}`, root `/r`,
candidate `/r/a` in creation mode resolves to `/r/a`, which the theorem
certifies to lie below `/r`. -/
theorem localPathCheck_containment_witness :
    pyResolve [(["r".data], Node.dir)] ["r".data, "a".data] false =
      .ok ["r".data, "a".data] ∧
    ["r".data] <+: ["r".data, "a".data] :=
  localPathCheck_containment [(["r".data], Node.dir)] ["r".data, "a".data]
    ["r".data] false ["r".data, "a".data] (by rfl)

lemma partitionSlash_no_slash (s : PyStr) (h : '/' ∉ s) :
    partitionSlash s = (s, [], []) := by
  induction s with
  | nil => rfl
  | cons c rest ih =>
    have hc : c ≠ '/' := fun hc => h (hc ▸ List.mem_cons_self c rest)
    have hr : '/' ∉ rest := fun hm => h (List.mem_cons_of_mem c hm)
    simp [partitionSlash, hc, ih hr]

lemma partitionSlash_append (name rest : PyStr) (h : '/' ∉ name) :
    partitionSlash (name ++ '/' :: rest) = (name, ['/'], rest) := by
  induction name with
  | nil => simp [partitionSlash]
  | cons c tl ih =>
    have hc : c ≠ '/' := fun hc => h (hc ▸ List.mem_cons_self c tl)
    have ht : '/' ∉ tl := fun hm => h (List.mem_cons_of_mem c hm)
    simp [partitionSlash, hc, ih ht]

lemma pfx_isPrefixOf_append (pfx x : PyStr) : pfx.isPrefixOf (pfx ++ x) = true :=
  List.isPrefixOf_iff_prefix.mpr (List.prefix_append pfx x)

/-- C3 — Read-only enforcement during routing: for a share registered with
`readonly = true` (and likewise for the home page), `_web_path` rejects every
POST with `HTTPMethodNotAllowed` allowing only GET — before any mutation
handler can run — for every path suffix (with or without a trailing
sub-path). -/
theorem readonly_share_post_rejected (sv : Srv) (name : PyStr) (r : AbsPath)
    (rest : PyStr)
    (hfd : lookupShare sv.fd name = some (.fsroot r))
    (hro : sv.ro.contains name = true)
    (hne : name ≠ []) (hns : '/' ∉ name) :
    webPath sv (sv.pfx ++ name ++ '/' :: rest) (some "POST".data) =
      .error (.methodNotAllowed ["GET".data]) ∧
    webPath sv (sv.pfx ++ name) (some "POST".data) =
      .error (.methodNotAllowed ["GET".data]) ∧
    webPath sv sv.pfx (some "POST".data) =
      .error (.methodNotAllowed ["GET".data]) := by
  refine ⟨?_, ?_, ?_⟩
  · have hdrop : (sv.pfx ++ name ++ '/' :: rest).drop sv.pfx.length =
        name ++ '/' :: rest := by
      rw [List.append_assoc]; exact List.drop_left sv.pfx _
    unfold webPath
    rw [List.append_assoc, pfx_isPrefixOf_append]
    simp only [not_true_eq_false, if_false, ← List.append_assoc, hdrop]
    rw [partitionSlash_append name rest hns]
    simp only [hne, if_false, hfd]
    unfold routeTail
    simp [List.mem_of_elem_eq_true hro]
  · have hdrop : (sv.pfx ++ name).drop sv.pfx.length = name :=
      List.drop_left sv.pfx name
    unfold webPath
    rw [pfx_isPrefixOf_append]
    simp only [not_true_eq_false, if_false, hdrop]
    rw [partitionSlash_no_slash name hns]
    simp only [hne, if_false, hfd]
    unfold routeTail
    simp [List.mem_of_elem_eq_true hro]
  · have hdrop : sv.pfx.drop sv.pfx.length = [] := by simp
    unfold webPath
    have : sv.pfx.isPrefixOf (sv.pfx ++ []) = true := pfx_isPrefixOf_append sv.pfx []
    rw [List.append_nil] at this
    rw [this]
    simp only [not_true_eq_false, if_false, hdrop]
    simp [partitionSlash, routeTail]

/-- Witness for C3: a server with prefix `/`, one read-only share `ro` rooted
at `/r`; POSTs to `/ro/x`, `/ro` and the home page all answer 405 Allow GET. -/
theorem readonly_share_post_rejected_witness :
    (webPath ⟨"/".data, [("ro".data, .fsroot ["r".data])], ["ro".data], []⟩
        ("/".data ++ "ro".data ++ '/' :: "x".data) (some "POST".data) =
      .error (.methodNotAllowed ["GET".data]) ∧
    webPath ⟨"/".data, [("ro".data, .fsroot ["r".data])], ["ro".data], []⟩
        ("/".data ++ "ro".data) (some "POST".data) =
      .error (.methodNotAllowed ["GET".data]) ∧
    webPath ⟨"/".data, [("ro".data, .fsroot ["r".data])], ["ro".data], []⟩
        "/".data (some "POST".data) =
      .error (.methodNotAllowed ["GET".data])) :=
  readonly_share_post_rejected
    ⟨"/".data, [("ro".data, .fsroot ["r".data])], ["ro".data], []⟩
    "ro".data ["r".data] "x".data (by rfl) (by rfl) (by decide) (by decide)

/-- C2 (counterexample) — The claim is false on the code: the input `'..'`
parses to a single non-anchored part, so the delete handler does *not*
return its `'Illegal'` outcome for it; posting delete `'..'` inside
`/r/sub` resolves to `/r` itself (inside the root!), and `shutil.rmtree`
then erases the whole share.  Likewise `'sub/'` — a value containing a
separator — parses to one segment and sails past the check into a
filesystem call. -/
theorem singleSegment_dotdot_counterexample :
    postDelete fsSub ["r".data, "sub".data] ["r".data] "..".data =
      (.deleted "..".data, [], true) ∧
    (postMkdir fsSub ["r".data] ["r".data] "sub/".data).1 =
      .createFailed "sub/".data := by
  constructor
  · decide
  · decide

/-- C2 (amended) — Single-segment enforcement as the code actually performs
it: any mutation-handler name input whose *parsed form* is not exactly one
non-anchored path part (`len(Path(s).parts) != 1 or Path(s).anchor`) is
rejected with the handler's `'Illegal'` outcome before any filesystem call,
leaving the filesystem unchanged.  The value `'..'` (and a value like
`'sub/'` whose separator is normalized away) is *not* caught by this check;
it proceeds to path resolution instead. -/
theorem singleSegment_enforcement (fs : FS) (path root : AbsPath) (s : PyStr)
    (h : illegalSingleSeg s = true) :
    postMkdir fs path root s = (.illegalInput, fs, true) ∧
    postDelete fs path root s = (.illegalInput, fs, true) ∧
    (∀ toS : PyStr,
      postRename fs path root s (some ("4".data, toS)) = (.illegalInput, fs, true)) ∧
    (∀ frS : PyStr,
      postRename fs path root frS (some ("4".data, s)) = (.illegalInput, fs, true)) ∧
    (∀ (cont : PyStr) (chunks : List (List Nat)) (fa : Option Nat)
        (rest : List FormField),
      postUpload fs path root (⟨"0".data, s, cont, chunks, fa⟩ :: rest) =
        (.illegalFilename, fs, false)) := by
  refine ⟨?_, ?_, ?_, ?_, ?_⟩
  · simp [postMkdir, h]
  · simp [postDelete, h]
  · intro toS; simp [postRename, h]
  · intro frS; simp [postRename, h]
  · intro cont chunks fa rest
    simp [postUpload, uploadLoop, h]

/-- Witness for C2 (amended) at the anchored input `'/etc'`: every handler
rejects it as its `'Illegal'` outcome without touching the filesystem. -/
theorem singleSegment_enforcement_witness :
    postMkdir fsDemo ["w".data] ["w".data] "/etc".data =
      (.illegalInput, fsDemo, true) ∧
    postDelete fsDemo ["w".data] ["w".data] "/etc".data =
      (.illegalInput, fsDemo, true) ∧
    (∀ toS : PyStr,
      postRename fsDemo ["w".data] ["w".data] "/etc".data (some ("4".data, toS)) =
        (.illegalInput, fsDemo, true)) ∧
    (∀ frS : PyStr,
      postRename fsDemo ["w".data] ["w".data] frS (some ("4".data, "/etc".data)) =
        (.illegalInput, fsDemo, true)) ∧
    (∀ (cont : PyStr) (chunks : List (List Nat)) (fa : Option Nat)
        (rest : List FormField),
      postUpload fsDemo ["w".data] ["w".data]
          (⟨"0".data, "/etc".data, cont, chunks, fa⟩ :: rest) =
        (.illegalFilename, fsDemo, false)) :=
  singleSegment_enforcement fsDemo ["w".data] ["w".data] "/etc".data (by decide)

/-- C5 — Rename safety: with single-segment names, an existing resolved
source and a resolvable destination, an already-occupied destination makes
`_post_rename` answer exactly `'Target exists.'` with the filesystem
untouched; and, in full generality, *every* outcome other than
`'Renamed: …'` leaves the filesystem exactly as it was (the only mutation is
the single atomic rename). -/
theorem rename_no_partial_state (fs : FS) (path root : AbsPath) (fr toS : PyStr)
    (newfr newto : AbsPath)
    (hleg : illegalSingleSeg fr = false) (hleg2 : illegalSingleSeg toS = false)
    (hfr : localPathCheck fs (path ++ pyParseSegs fr) root true = .ok newfr)
    (hto : localPathCheck fs (path ++ pyParseSegs toS) root false = .ok newto)
    (hex : fsExists fs newto = true) :
    postRename fs path root fr (some ("4".data, toS)) = (.targetExists, fs, true) ∧
    (∀ (fs₀ : FS) (p₀ r₀ : AbsPath) (f₀ : PyStr) (sec : Option (PyStr × PyStr)),
      (∀ n : PyStr, (postRename fs₀ p₀ r₀ f₀ sec).1 ≠ .renamed n) →
      (postRename fs₀ p₀ r₀ f₀ sec).2.1 = fs₀) := by
  constructor
  · simp [postRename, hleg, hleg2, hfr, hto, hex]
  · intro fs₀ p₀ r₀ f₀ sec hno
    unfold postRename at hno ⊢
    match sec with
    | none => rfl
    | some (n, toS₀) =>
      by_cases hn : n = "4".data
      case neg => simp [hn]
      case pos =>
        subst hn
        simp only [ne_eq, not_true_eq_false, if_false] at hno ⊢
        by_cases hill : illegalSingleSeg f₀ || illegalSingleSeg toS₀
        · simp [hill]
        · simp only [hill, if_false] at hno ⊢
          cases hfr0 : localPathCheck fs₀ (p₀ ++ pyParseSegs f₀) r₀ true with
          | error e => rfl
          | ok nf =>
            rw [hfr0] at hno
            cases hto0 : localPathCheck fs₀ (p₀ ++ pyParseSegs toS₀) r₀ false with
            | error e => rfl
            | ok nt =>
              rw [hto0] at hno
              by_cases hx : fsExists fs₀ nt
              · simp [hx]
              · simp only [hx, if_false] at hno
                exact absurd rfl (hno toS₀)

/-- Witness for C5: in `/w`, renaming existing `g` onto itself reports
`'Target exists.'` and changes nothing. -/
theorem rename_no_partial_state_witness :
    postRename fsDemo ["w".data] ["w".data] "g".data (some ("4".data, "g".data)) =
      (.targetExists, fsDemo, true) :=
  (rename_no_partial_state fsDemo ["w".data] ["w".data] "g".data "g".data
    ["w".data, "g".data] ["w".data, "g".data]
    (by decide) (by decide) (by decide) (by decide) (by decide)).1

/-- C7 — Copy/move read-only guard: whenever the joined source URL routes to
a share whose effective read-only flag is set and the method flag is `mv`,
`_post_copy_move` answers exactly `'Target read-only. Move not allowed.'`,
performs no filesystem operation (the filesystem is returned unchanged, the
source untouched), and releases the reader. -/
theorem copymove_readonly_move_guard (sv : Srv) (fs : FS)
    (reqPath src : PyStr) (path root : AbsPath)
    (rname : PyStr) (root2? : Option AbsPath) (rest : List Seg)
    (hroute : webPath sv (collapseSlashes (pyUrljoin reqPath src)) none =
      .ok (.route rname root2? true rest)) :
    postCopyMove sv fs reqPath path root "mv".data (some ("6".data, src)) =
      (.targetReadOnly, fs, true) := by
  simp [postCopyMove, hroute]

/-- Witness for C7: from the writable directory `/w`, pasting source
`/ro/f` (a file of the read-only share) with method `mv` reports
`'Target read-only. Move not allowed.'` and leaves the filesystem — in
particular the source file — untouched. -/
theorem copymove_readonly_move_guard_witness :
    postCopyMove svDemo fsDemo "/w/".data ["w".data] ["w".data] "mv".data
        (some ("6".data, "/ro/f".data)) =
      (.targetReadOnly, fsDemo, true) :=
  copymove_readonly_move_guard svDemo fsDemo "/w/".data "/ro/f".data
    ["w".data] ["w".data] "ro".data (some ["ro".data]) ["f".data] (by decide)

lemma resolveLoop_nonstrict_ne_notFound (fs : FS) :
    ∀ (fuel : Nat) (acc : AbsPath) (comps : List Seg),
      resolveLoop fs fuel acc comps false ≠ .error .notFound := by
  intro fuel
  induction fuel with
  | zero => intro acc comps; simp [resolveLoop]
  | succ n ih =>
    intro acc comps
    cases comps with
    | nil => simp [resolveLoop]
    | cons c rest =>
      by_cases h1 : c = [] ∨ c = ['.']
      · simpa [resolveLoop, h1] using ih acc rest
      · by_cases h2 : c = ['.', '.']
        · simpa [resolveLoop, h1, h2] using ih acc.dropLast rest
        · cases hl : lookupFS fs (acc ++ [c]) with
          | none => simpa [resolveLoop, h1, h2, hl] using ih (acc ++ [c]) rest
          | some node =>
            cases node with
            | symlink b t =>
              simpa [resolveLoop, h1, h2, hl] using
                ih (if b then [] else acc) (t ++ rest)
            | dir => simpa [resolveLoop, h1, h2, hl] using ih (acc ++ [c]) rest
            | file cc => simpa [resolveLoop, h1, h2, hl] using ih (acc ++ [c]) rest

/-- C6 — Failure taxonomy of path resolution: (i) in must-exist mode,
`_local_path_check` fails NotFound exactly when the resolve walk hits an
absent node; (ii) in creation mode NotFound is impossible; (iii) Forbidden
arises exactly from a resolution that escapes the root (the resolved result
is not below the root) or from a non-absence resolution error (symlink
loop); (iv) a remainder carrying an absolute anchor is rejected Forbidden
during routing.  The two failure kinds are thus characterized by disjoint
conditions and never conflated. -/
theorem failure_taxonomy (fs : FS) (comps : List Seg) (root : AbsPath)
    (strict : Bool) (restStr : PyStr) (sv : Srv) (sn : PyStr)
    (root? : Option AbsPath)
    (hanch : pyAnchor restStr = true) :
    (localPathCheck fs comps root true = .error .notFound ↔
      pyResolve fs comps true = .error .notFound) ∧
    localPathCheck fs comps root false ≠ .error .notFound ∧
    (localPathCheck fs comps root strict = .error .forbidden ↔
      (pyResolve fs comps strict = .error .other ∨
        ∃ res, pyResolve fs comps strict = .ok res ∧ root.isPrefixOf res = false)) ∧
    routeTail sv sn root? restStr none = .error .forbidden := by
  refine ⟨?_, ?_, ?_, ?_⟩
  · unfold localPathCheck
    cases h : pyResolve fs comps true with
    | error e => cases e <;> simp
    | ok res =>
      by_cases hp : root.isPrefixOf res <;> simp [hp]
  · unfold localPathCheck
    cases h : pyResolve fs comps false with
    | error e =>
      cases e
      · exact absurd h (resolveLoop_nonstrict_ne_notFound fs pyFuel [] comps)
      · simp
    | ok res =>
      by_cases hp : root.isPrefixOf res <;> simp [hp]
  · unfold localPathCheck
    cases h : pyResolve fs comps strict with
    | error e => cases e <;> simp
    | ok res =>
      by_cases hp : root.isPrefixOf res <;> simp [hp]
  · simp [routeTail, hanch]

/-- Witness for C6 at concrete inputs: with root `/w` of `fsDemo`,
the characterizations hold for the candidate `/w/nope` and an anchored
remainder `/x` is Forbidden at routing. -/
theorem failure_taxonomy_witness :
    ((localPathCheck fsDemo ["w".data, "nope".data] ["w".data] true =
        .error .notFound ↔
      pyResolve fsDemo ["w".data, "nope".data] true = .error .notFound) ∧
    localPathCheck fsDemo ["w".data, "nope".data] ["w".data] false ≠
      .error .notFound ∧
    (localPathCheck fsDemo ["w".data, "nope".data] ["w".data] true =
        .error .forbidden ↔
      (pyResolve fsDemo ["w".data, "nope".data] true = .error .other ∨
        ∃ res, pyResolve fsDemo ["w".data, "nope".data] true = .ok res ∧
          (["w".data] : AbsPath).isPrefixOf res = false)) ∧
    routeTail svDemo "w".data (some ["w".data]) "/x".data none =
      .error .forbidden) :=
  failure_taxonomy fsDemo ["w".data, "nope".data] ["w".data] true
    "/x".data svDemo "w".data (some ["w".data]) (by decide)

/-- C9 — The claim describes the intended 200 listing (with `../` and the
symlink/dir/file grouping), but the code cannot produce it whenever the
directory contains a regular file: `_size_for_human` is broken (declared
without `self` yet called as a bound method, a unit counter that is never
incremented, and an f-string that is a Python SyntaxError), so rendering the
first file row raises and `GET /d/` dies with a 500 instead of returning
200.  Evaluation at the failing input: listing `/d` (which holds one file)
crashes, end to end. -/
theorem dir_listing_crash_on_file :
    getDir svDemo fsDemo true "d".data ["d".data] = .error .crash ∧
    requestHandler svDemo fsDemo "GET".data "/d/".data [] false [] =
      (.error .listingCrash, fsDemo) := by
  constructor
  · decide
  · decide

/-- C10 — POST to an existing regular file of a writable share: the code
reaches `raise web.HTTPMethodNotAllowed(method, ['GET'])`, but the variable
`method` is undefined in `_request_handler` (it should be
`request.method`), so a `NameError` escapes and the server answers 500, not
the claimed 405-with-Allow-GET.  No filesystem mutation occurs (the
filesystem is returned unchanged).  Evaluation at the failing input
`POST /w/g`. -/
theorem post_to_file_nameerror :
    requestHandler svDemo fsDemo "POST".data "/w/g".data [] true
        [⟨"1".data, [], "z".data, [], none⟩] =
      (.error .nameErrorUndefinedMethod, fsDemo) := by
  decide

/-- C8 (counterexample) — The claim is false on the code: `_post_upload`'s
early `return 'Illegal filename'` (multi-segment filename `a/b`) exits
without ever executing `await reader.release()` — the released flag is
`false`. -/
theorem upload_release_skipped_counterexample :
    postUpload fsDemo ["w".data] ["w".data]
        [⟨"0".data, "a/b".data, [], [], none⟩] =
      (.illegalFilename, fsDemo, false) := by
  decide

/-- C8 (amended) — Reader release as the code actually behaves: mkdir,
delete, rename and copy/move release the multipart reader on *every* exit
path (their release sits in a `finally`), and upload releases on every exit
path — normal completion, loop exit on a foreign field, per-file failure —
*except* its illegal-filename early return, which skips the release. -/
theorem reader_release_amended (sv : Srv) (fs : FS) (reqPath : PyStr)
    (path root : AbsPath) (s fr mflag : PyStr) (sec : Option (PyStr × PyStr)) :
    (postMkdir fs path root s).2.2 = true ∧
    (postDelete fs path root s).2.2 = true ∧
    (postRename fs path root fr sec).2.2 = true ∧
    (postCopyMove sv fs reqPath path root mflag sec).2.2 = true ∧
    (∀ fields : List FormField,
      (∀ f ∈ fields, illegalSingleSeg f.filename = false) →
      (postUpload fs path root fields).2.2 = true) := by
  refine ⟨?_, ?_, ?_, ?_, ?_⟩
  · unfold postMkdir
    repeat (first | rfl | split)
  · unfold postDelete
    repeat (first | rfl | split)
  · unfold postRename
    repeat (first | rfl | split)
  · unfold postCopyMove finishPaste
    repeat (first | rfl | split)
  · have H : ∀ (fields : List FormField) (fs₁ : FS) (np? : Option AbsPath)
        (acc : List UpItem),
        (∀ f ∈ fields, illegalSingleSeg f.filename = false) →
        (uploadLoop path root fs₁ np? acc fields).2.2 = true := by
      intro fields
      induction fields with
      | nil => intro fs₁ np? acc _; rfl
      | cons f rest ih =>
        intro fs₁ np? acc hleg
        have hf : illegalSingleSeg f.filename = false :=
          hleg f (List.mem_cons_self f rest)
        have hr : ∀ g ∈ rest, illegalSingleSeg g.filename = false :=
          fun g hg => hleg g (List.mem_cons_of_mem f hg)
        by_cases h0 : f.fieldName = "0".data
        · cases hl : localPathCheck fs₁ (path ++ pyParseSegs f.filename) root false with
          | error e => simp [uploadLoop, h0, hf, hl]
          | ok newp =>
            cases hw : fsOpenWrite fs₁ newp with
            | none => simp [uploadLoop, h0, hf, hl, hw]
            | some fs2 =>
              cases hfa : f.failAt with
              | some i => simp [uploadLoop, h0, hf, hl, hw, hfa]
              | none =>
                simp only [uploadLoop, h0, ne_eq, not_true_eq_false, if_false,
                  hf, Bool.false_eq_true, hl, hw, hfa]
                exact ih _ _ _ hr
        · simp [uploadLoop, h0]
    intro fields hleg
    exact H fields fs none [] hleg

/-- Witness for C8 (amended): all five handlers with concrete inputs in
`/w` of `fsDemo` release the reader (the upload batch holding one legal
file). -/
theorem reader_release_amended_witness :
    (postMkdir fsDemo ["w".data] ["w".data] "z".data).2.2 = true ∧
    (postDelete fsDemo ["w".data] ["w".data] "g".data).2.2 = true ∧
    (postRename fsDemo ["w".data] ["w".data] "g".data
      (some ("4".data, "h".data))).2.2 = true ∧
    (postCopyMove svDemo fsDemo "/w/".data ["w".data] ["w".data] "cp".data
      (some ("6".data, "/ro/f".data))).2.2 = true ∧
    (postUpload fsDemo ["w".data] ["w".data]
      [⟨"0".data, "up.txt".data, [], [[9]], none⟩]).2.2 = true := by
  have h := reader_release_amended svDemo fsDemo "/w/".data ["w".data]
    ["w".data] "z".data "g".data "cp".data (some ("6".data, "/ro/f".data))
  refine ⟨h.1, ?_, ?_, h.2.2.2.1, ?_⟩
  · exact (reader_release_amended svDemo fsDemo "/w/".data ["w".data]
      ["w".data] "g".data "g".data "cp".data none).2.1
  · exact (reader_release_amended svDemo fsDemo "/w/".data ["w".data]
      ["w".data] "z".data "g".data "cp".data (some ("4".data, "h".data))).2.2.1
  · exact h.2.2.2.2 [⟨"0".data, "up.txt".data, [], [[9]], none⟩] (by decide)

lemma legal_parse (s : PyStr) (h : illegalSingleSeg s = false) :
    pyParseSegs s = [(pyParseSegs s).headD []] ∧
    (pyParseSegs s).headD [] ≠ [] ∧ (pyParseSegs s).headD [] ≠ ['.'] := by
  have h' : pyPartsLen s = 1 ∧ pyAnchor s = false := by
    unfold illegalSingleSeg at h
    rcases Bool.or_eq_false_iff.mp h with ⟨h1, h2⟩
    exact ⟨by simpa using of_decide_eq_false h1, h2⟩
  have hlen : (pyParseSegs s).length = 1 := by
    have := h'.1
    unfold pyPartsLen at this
    rw [h'.2] at this
    simpa using this
  cases hs : pyParseSegs s with
  | nil => rw [hs] at hlen; simp at hlen
  | cons a t =>
    rw [hs] at hlen
    simp only [List.length_cons, Nat.add_left_eq_self, List.length_eq_zero] at hlen
    subst hlen
    have hmem : a ∈ pyParseSegs s := by rw [hs]; exact List.mem_cons_self a []
    have := List.of_mem_filter hmem
    have hpred : a ≠ [] ∧ a ≠ ['.'] := of_decide_eq_true this
    exact ⟨by simp, hpred.1, hpred.2⟩

lemma lookupFS_removeKey_ne (fs : FS) (p q : AbsPath) (h : q ≠ p) :
    lookupFS (removeKey fs p) q = lookupFS fs q := by
  induction fs with
  | nil => rfl
  | cons e rest ih =>
    rcases e with ⟨k, v⟩
    simp only [removeKey, List.filter_cons] at ih ⊢
    by_cases he : k = p
    · have hd : decide (k ≠ p) = false := by simp [he]
      rw [hd, if_neg (by simp : ¬ (false = true))]
      have hne : k ≠ q := by rw [he]; exact fun hq => h hq.symm
      simp only [lookupFS]
      rw [if_neg hne]
      exact ih
    · have hd : decide (k ≠ p) = true := by simp [he]
      rw [hd, if_pos rfl]
      simp only [lookupFS]
      by_cases heq : k = q
      · rw [if_pos heq, if_pos heq]
      · rw [if_neg heq, if_neg heq]; exact ih

lemma lookupFS_setFile_eq (fs : FS) (p : AbsPath) (c : List Nat) :
    lookupFS (setFile fs p c) p = some (Node.file c) := by
  simp [setFile, lookupFS]

lemma lookupFS_setFile_ne (fs : FS) (p : AbsPath) (c : List Nat) (q : AbsPath)
    (h : q ≠ p) :
    lookupFS (setFile fs p c) q = lookupFS fs q := by
  have hp : p ≠ q := fun hq => h hq.symm
  simp only [setFile, lookupFS, hp, if_false]
  exact lookupFS_removeKey_ne fs p q h

lemma lookupFS_removeKey_self (fs : FS) (p : AbsPath) :
    lookupFS (removeKey fs p) p = none := by
  induction fs with
  | nil => rfl
  | cons e rest ih =>
    rcases e with ⟨k, v⟩
    simp only [removeKey, List.filter_cons] at ih ⊢
    by_cases he : k = p
    · have hd : decide (k ≠ p) = false := by simp [he]
      rw [hd, if_neg (by simp : ¬ (false = true))]
      exact ih
    · have hd : decide (k ≠ p) = true := by simp [he]
      rw [hd, if_pos rfl]
      simp only [lookupFS]
      rw [if_neg he]
      exact ih

lemma lookupFS_tryUnlink_ne (fs : FS) (p q : AbsPath) (h : q ≠ p) :
    lookupFS (tryUnlink fs p) q = lookupFS fs q := by
  unfold tryUnlink
  cases lookupFS fs p with
  | none => rfl
  | some node =>
    cases node with
    | file c => exact lookupFS_removeKey_ne fs p q h
    | dir => rfl
    | symlink b t => exact lookupFS_removeKey_ne fs p q h

lemma resolveLoop_through_dirs (fs : FS) (strict : Bool) :
    ∀ (mid : List Seg) (acc : AbsPath) (fuel : Nat) (rest : List Seg),
      (∀ i, i < mid.length → lookupFS fs (acc ++ mid.take (i+1)) = some Node.dir) →
      (∀ s ∈ mid, s ≠ [] ∧ s ≠ ['.'] ∧ s ≠ ['.', '.']) →
      resolveLoop fs (fuel + mid.length) acc (mid ++ rest) strict =
        resolveLoop fs fuel (acc ++ mid) rest strict := by
  intro mid
  induction mid with
  | nil => intro acc fuel rest _ _; simp
  | cons c ms ih =>
    intro acc fuel rest hdirs hplain
    have hc := hplain c (List.mem_cons_self c ms)
    have hc1 : ¬ (c = [] ∨ c = ['.']) := by
      rintro (h | h)
      · exact hc.1 h
      · exact hc.2.1 h
    have hl : lookupFS fs (acc ++ [c]) = some Node.dir := by
      have := hdirs 0 (by simp)
      simpa using this
    have harith : fuel + (c :: ms).length = (fuel + ms.length) + 1 := by
      simp [List.length_cons]
      omega
    rw [harith, List.cons_append]
    simp only [resolveLoop, hc1, if_false, hc.2.2, hl]
    rw [ih (acc ++ [c]) fuel rest ?_ ?_]
    · simp
    · intro i hi
      have := hdirs (i+1) (by simpa using Nat.succ_lt_succ hi)
      simpa [List.append_assoc] using this
    · exact fun s hs => hplain s (List.mem_cons_of_mem c hs)

lemma lpc_create_clean (fs : FS) (path root : AbsPath) (s : Seg)
    (hch : cleanPath fs path) (hpl : plainSegs path)
    (hfuel : path.length + 2 ≤ pyFuel)
    (hs1 : s ≠ []) (hs2 : s ≠ ['.']) (hs3 : s ≠ ['.', '.'])
    (habs : lookupFS fs (path ++ [s]) = none ∨
      ∃ c, lookupFS fs (path ++ [s]) = some (Node.file c))
    (hroot : root.isPrefixOf path = true) :
    localPathCheck fs (path ++ [s]) root false = .ok (path ++ [s]) := by
  have hres : pyResolve fs (path ++ [s]) false = .ok (path ++ [s]) := by
    unfold pyResolve
    obtain ⟨k, hk⟩ : ∃ k, pyFuel = (k + 2) + path.length :=
      ⟨pyFuel - path.length - 2, by omega⟩
    rw [hk,
      resolveLoop_through_dirs fs false path [] (k + 2) [s] ?hdirs ?hplain]
    case hdirs =>
      intro i hi
      have hpre : path.take (i+1) <+: path := List.take_prefix (i+1) path
      have hne : path.take (i+1) ≠ [] := by
        have : 0 < (path.take (i+1)).length := by
          rw [List.length_take]
          omega
        exact List.ne_nil_of_length_pos this
      have := hch (path.take (i+1)) ((List.mem_inits _ _).mpr hpre) hne
      simpa using this
    case hplain => exact hpl
    have hs12 : ¬ (s = [] ∨ s = ['.']) := by
      rintro (h | h)
      · exact hs1 h
      · exact hs2 h
    rcases habs with hnone | ⟨cc, hfile⟩
    · simp only [List.nil_append, resolveLoop, hs12, if_false, hs3, hnone,
        Bool.false_eq_true]
    · simp only [List.nil_append, resolveLoop, hs12, if_false, hs3, hfile]
  unfold localPathCheck
  rw [hres]
  have hp : root.isPrefixOf (path ++ [s]) = true :=
    List.isPrefixOf_iff_prefix.mpr
      ((List.isPrefixOf_iff_prefix.mp hroot).trans (List.prefix_append path [s]))
  simp [hp]

lemma fsOpenWrite_fresh (fs : FS) (path : AbsPath) (s : Seg)
    (hpdir : lookupFS fs path = some Node.dir)
    (habs : lookupFS fs (path ++ [s]) = none ∨
      ∃ c, lookupFS fs (path ++ [s]) = some (Node.file c)) :
    fsOpenWrite fs (path ++ [s]) = some (setFile fs (path ++ [s]) []) := by
  have hne : path ++ [s] ≠ [] := by simp
  have hdl : (path ++ [s]).dropLast = path := by simp
  unfold fsOpenWrite
  rcases habs with h | ⟨c, h⟩
  · rw [h]
    simp [hne, hdl, hpdir]
  · rw [h]

lemma append_singleton_ne (path : AbsPath) (a b : Seg) (h : a ≠ b) :
    path ++ [a] ≠ path ++ [b] := by
  intro he
  apply h
  have := congrArg (List.drop path.length) he
  simpa [List.drop_left] using this

lemma uploadLoop_head (path root : AbsPath) (fs₁ : FS) (np? : Option AbsPath)
    (acc : List UpItem) (f : FormField) (rest' : List FormField)
    (h0 : f.fieldName = "0".data)
    (hleg : illegalSingleSeg f.filename = false)
    (hlpc : localPathCheck fs₁ (path ++ pyParseSegs f.filename) root false =
      .ok (path ++ [fileSeg f]))
    (hw : fsOpenWrite fs₁ (path ++ [fileSeg f]) =
      some (setFile fs₁ (path ++ [fileSeg f]) [])) :
    uploadLoop path root fs₁ np? acc (f :: rest') =
      (match f.failAt with
       | some i =>
         (.report (acc ++ [.failed f.filename]),
           tryUnlink (setFile (setFile fs₁ (path ++ [fileSeg f]) [])
             (path ++ [fileSeg f]) ((f.chunks.take i).flatten))
             (path ++ [fileSeg f]), true)
       | none =>
         uploadLoop path root
           (setFile (setFile fs₁ (path ++ [fileSeg f]) [])
             (path ++ [fileSeg f]) f.chunks.flatten)
           (some (path ++ [fileSeg f]))
           (acc ++ [.success f.filename]) rest') := by
  conv_lhs => simp only [uploadLoop]
  simp only [h0, ne_eq, not_true_eq_false, if_false, hleg, Bool.false_eq_true,
    hlpc, hw]

lemma uploadLoop_head_fail (path root : AbsPath) (fs₁ : FS) (np? : Option AbsPath)
    (acc : List UpItem) (f : FormField) (rest' : List FormField) (i : Nat)
    (h0 : f.fieldName = "0".data)
    (hleg : illegalSingleSeg f.filename = false)
    (hlpc : localPathCheck fs₁ (path ++ pyParseSegs f.filename) root false =
      .ok (path ++ [fileSeg f]))
    (hw : fsOpenWrite fs₁ (path ++ [fileSeg f]) =
      some (setFile fs₁ (path ++ [fileSeg f]) []))
    (hfa : f.failAt = some i) :
    uploadLoop path root fs₁ np? acc (f :: rest') =
      (.report (acc ++ [.failed f.filename]),
        tryUnlink (setFile (setFile fs₁ (path ++ [fileSeg f]) [])
          (path ++ [fileSeg f]) ((f.chunks.take i).flatten))
          (path ++ [fileSeg f]), true) := by
  rw [uploadLoop_head path root fs₁ np? acc f rest' h0 hleg hlpc hw, hfa]

lemma uploadLoop_head_ok (path root : AbsPath) (fs₁ : FS) (np? : Option AbsPath)
    (acc : List UpItem) (f : FormField) (rest' : List FormField)
    (h0 : f.fieldName = "0".data)
    (hleg : illegalSingleSeg f.filename = false)
    (hlpc : localPathCheck fs₁ (path ++ pyParseSegs f.filename) root false =
      .ok (path ++ [fileSeg f]))
    (hw : fsOpenWrite fs₁ (path ++ [fileSeg f]) =
      some (setFile fs₁ (path ++ [fileSeg f]) []))
    (hfa : f.failAt = none) :
    uploadLoop path root fs₁ np? acc (f :: rest') =
      uploadLoop path root
        (setFile (setFile fs₁ (path ++ [fileSeg f]) [])
          (path ++ [fileSeg f]) f.chunks.flatten)
        (some (path ++ [fileSeg f]))
        (acc ++ [.success f.filename]) rest' := by
  rw [uploadLoop_head path root fs₁ np? acc f rest' h0 hleg hlpc hw, hfa]

lemma uploadLoop_batch (path root : AbsPath)
    (hroot : root.isPrefixOf path = true)
    (hpl : plainSegs path) (hpne : path ≠ [])
    (hfuel : path.length + 2 ≤ pyFuel) :
    ∀ (good : List FormField) (bad : FormField) (rest : List FormField)
      (fs₁ : FS) (np? : Option AbsPath) (acc : List UpItem),
      cleanPath fs₁ path →
      (∀ f ∈ good, okField f ∧ f.failAt = none ∧
        lookupFS fs₁ (path ++ [fileSeg f]) = none) →
      okField bad → bad.failAt.isSome = true →
      lookupFS fs₁ (path ++ [fileSeg bad]) = none →
      ((good ++ [bad]).map fileSeg).Nodup →
      ∃ fs₂,
        uploadLoop path root fs₁ np? acc (good ++ bad :: rest) =
          (.report (acc ++ good.map (fun f => .success f.filename) ++
            [.failed bad.filename]), fs₂, true) ∧
        (∀ f ∈ good,
          lookupFS fs₂ (path ++ [fileSeg f]) = some (Node.file f.chunks.flatten)) ∧
        lookupFS fs₂ (path ++ [fileSeg bad]) = none ∧
        (∀ q : AbsPath, (∀ f ∈ good ++ [bad], q ≠ path ++ [fileSeg f]) →
          lookupFS fs₂ q = lookupFS fs₁ q) := by
  intro good
  induction good with
  | nil =>
    intro bad rest fs₁ np? acc hch hgood hokb hfab hlb hnd
    obtain ⟨i, hfa⟩ := Option.isSome_iff_exists.mp hfab
    obtain ⟨h0, hleg, hdd⟩ := hokb
    obtain ⟨hparse, hne1, hne2⟩ := legal_parse bad.filename hleg
    have hpdir : lookupFS fs₁ path = some Node.dir :=
      hch path ((List.mem_inits _ _).mpr (List.prefix_refl path)) hpne
    have hlpc : localPathCheck fs₁ (path ++ pyParseSegs bad.filename) root false =
        .ok (path ++ [fileSeg bad]) := by
      rw [hparse]
      exact lpc_create_clean fs₁ path root (fileSeg bad) hch hpl hfuel
        hne1 hne2 hdd (Or.inl hlb) hroot
    have hw := fsOpenWrite_fresh fs₁ path (fileSeg bad) hpdir (Or.inl hlb)
    refine ⟨tryUnlink (setFile (setFile fs₁ (path ++ [fileSeg bad]) [])
      (path ++ [fileSeg bad]) ((bad.chunks.take i).flatten))
      (path ++ [fileSeg bad]), ?_, ?_, ?_, ?_⟩
    · rw [List.nil_append,
        uploadLoop_head_fail path root fs₁ np? acc bad rest i h0 hleg hlpc hw hfa]
      simp
    · intro f hf
      simp at hf
    · have hself : lookupFS (setFile (setFile fs₁ (path ++ [fileSeg bad]) [])
          (path ++ [fileSeg bad]) ((bad.chunks.take i).flatten))
          (path ++ [fileSeg bad]) =
          some (Node.file ((bad.chunks.take i).flatten)) :=
        lookupFS_setFile_eq _ _ _
      unfold tryUnlink
      rw [hself]
      exact lookupFS_removeKey_self _ _
    · intro q hq
      have hqb : q ≠ path ++ [fileSeg bad] := hq bad (by simp)
      rw [lookupFS_tryUnlink_ne _ _ _ hqb, lookupFS_setFile_ne _ _ _ _ hqb,
        lookupFS_setFile_ne _ _ _ _ hqb]
  | cons g gs ih =>
    intro bad rest fs₁ np? acc hch hgood hokb hfab hlb hnd
    obtain ⟨⟨h0, hleg, hdd⟩, hfn, hlg⟩ := hgood g (List.mem_cons_self g gs)
    obtain ⟨hparse, hne1, hne2⟩ := legal_parse g.filename hleg
    have hpdir : lookupFS fs₁ path = some Node.dir :=
      hch path ((List.mem_inits _ _).mpr (List.prefix_refl path)) hpne
    have hlpc : localPathCheck fs₁ (path ++ pyParseSegs g.filename) root false =
        .ok (path ++ [fileSeg g]) := by
      rw [hparse]
      exact lpc_create_clean fs₁ path root (fileSeg g) hch hpl hfuel
        hne1 hne2 hdd (Or.inl hlg) hroot
    have hw := fsOpenWrite_fresh fs₁ path (fileSeg g) hpdir (Or.inl hlg)
    have hgnot : fileSeg g ∉ (gs ++ [bad]).map fileSeg := by
      have h' : (fileSeg g :: (gs ++ [bad]).map fileSeg).Nodup := by
        simpa using hnd
      exact (List.nodup_cons.mp h').1
    have hnd' : ((gs ++ [bad]).map fileSeg).Nodup := by
      have h' : (fileSeg g :: (gs ++ [bad]).map fileSeg).Nodup := by
        simpa using hnd
      exact (List.nodup_cons.mp h').2
    have hkey : ∀ f ∈ gs ++ [bad],
        path ++ [fileSeg g] ≠ path ++ [fileSeg f] := by
      intro f hf
      apply append_singleton_ne
      intro he
      exact hgnot (he ▸ List.mem_map_of_mem fileSeg hf)
    have hch' : cleanPath (setFile (setFile fs₁ (path ++ [fileSeg g]) [])
        (path ++ [fileSeg g]) g.chunks.flatten) path := by
      intro q hq hqne
      have hlen : q.length ≤ path.length := ((List.mem_inits _ _).mp hq).length_le
      have hqpg : q ≠ path ++ [fileSeg g] := by
        intro he
        rw [he] at hlen
        simp at hlen
      rw [lookupFS_setFile_ne _ _ _ _ hqpg, lookupFS_setFile_ne _ _ _ _ hqpg]
      exact hch q hq hqne
    have hgood' : ∀ f ∈ gs, okField f ∧ f.failAt = none ∧
        lookupFS (setFile (setFile fs₁ (path ++ [fileSeg g]) [])
          (path ++ [fileSeg g]) g.chunks.flatten) (path ++ [fileSeg f]) = none := by
      intro f hf
      obtain ⟨ho, hfn', hlf⟩ := hgood f (List.mem_cons_of_mem g hf)
      have hkf : path ++ [fileSeg f] ≠ path ++ [fileSeg g] :=
        (hkey f (List.mem_append_left _ hf)).symm
      refine ⟨ho, hfn', ?_⟩
      rw [lookupFS_setFile_ne _ _ _ _ hkf, lookupFS_setFile_ne _ _ _ _ hkf]
      exact hlf
    have hlb' : lookupFS (setFile (setFile fs₁ (path ++ [fileSeg g]) [])
        (path ++ [fileSeg g]) g.chunks.flatten) (path ++ [fileSeg bad]) = none := by
      have hkb : path ++ [fileSeg bad] ≠ path ++ [fileSeg g] :=
        (hkey bad (List.mem_append_right _ (List.mem_singleton_self bad))).symm
      rw [lookupFS_setFile_ne _ _ _ _ hkb, lookupFS_setFile_ne _ _ _ _ hkb]
      exact hlb
    obtain ⟨fs₂, heq, hgood₂, hbad₂, hframe₂⟩ :=
      ih bad rest
        (setFile (setFile fs₁ (path ++ [fileSeg g]) [])
          (path ++ [fileSeg g]) g.chunks.flatten)
        (some (path ++ [fileSeg g]))
        (acc ++ [.success g.filename]) hch' hgood' hokb hfab hlb' hnd'
    refine ⟨fs₂, ?_, ?_, ?_, ?_⟩
    · rw [List.cons_append,
        uploadLoop_head_ok path root fs₁ np? acc g (gs ++ bad :: rest)
          h0 hleg hlpc hw hfn, heq]
      simp
    · intro f hf
      rcases List.mem_cons.mp hf with hfg | hfgs
      · subst hfg
        rw [hframe₂ (path ++ [fileSeg f]) hkey]
        exact lookupFS_setFile_eq _ _ _
      · exact hgood₂ f hfgs
    · exact hbad₂
    · intro q hq
      have hq' : ∀ f ∈ gs ++ [bad], q ≠ path ++ [fileSeg f] := by
        intro f hf
        rcases List.mem_append.mp hf with h1 | h1
        · exact hq f (List.mem_cons_of_mem g (List.mem_append_left _ h1))
        · exact hq f (List.mem_append_right _ h1)
      have hqg : q ≠ path ++ [fileSeg g] :=
        hq g (List.mem_append_left _ (List.mem_cons_self g gs))
      rw [hframe₂ q hq', lookupFS_setFile_ne _ _ _ _ hqg,
        lookupFS_setFile_ne _ _ _ _ hqg]

/-- C4 — Upload partial-failure isolation: for a batch `good ++ bad :: rest`
posted into a clean writable directory (every prefix a directory, fresh
single-segment target names, pairwise distinct), where every file of `good`
streams to completion and `bad` fails mid-write (`failAt = some i`):
the handler stops at `bad`, reporting `'Successful'` for each earlier file
and `'Failed'` for `bad` (nothing of `rest` is attempted or reported) and
releasing the reader; afterwards every file of `good` exists with exactly
its streamed content, `bad`'s partially written file has been deleted, and
every other path of the filesystem is untouched. -/
theorem upload_partial_failure (path root : AbsPath) (fs : FS)
    (good : List FormField) (bad : FormField) (rest : List FormField)
    (hroot : root.isPrefixOf path = true)
    (hpl : plainSegs path) (hpne : path ≠ [])
    (hfuel : path.length + 2 ≤ pyFuel)
    (hch : cleanPath fs path)
    (hgood : ∀ f ∈ good, okField f ∧ f.failAt = none ∧
      lookupFS fs (path ++ [fileSeg f]) = none)
    (hokb : okField bad) (hfab : bad.failAt.isSome = true)
    (hlb : lookupFS fs (path ++ [fileSeg bad]) = none)
    (hnd : ((good ++ [bad]).map fileSeg).Nodup) :
    ∃ fs₂,
      postUpload fs path root (good ++ bad :: rest) =
        (.report (good.map (fun f => .success f.filename) ++
          [.failed bad.filename]), fs₂, true) ∧
      (∀ f ∈ good,
        lookupFS fs₂ (path ++ [fileSeg f]) = some (Node.file f.chunks.flatten)) ∧
      lookupFS fs₂ (path ++ [fileSeg bad]) = none ∧
      (∀ q : AbsPath, (∀ f ∈ good ++ [bad], q ≠ path ++ [fileSeg f]) →
        lookupFS fs₂ q = lookupFS fs q) := by
  obtain ⟨fs₂, h1, h2, h3, h4⟩ := uploadLoop_batch path root hroot hpl hpne hfuel
    good bad rest fs none [] hch hgood hokb hfab hlb hnd
  exact ⟨fs₂, by simpa using h1, h2, h3, h4⟩

/-- Witness for C4: uploading `u1` (two chunks, succeeds) then `u2` (fails
at its first chunk) then `u3` (never reached) into `/w` of `fsDemo`. -/
theorem upload_partial_failure_witness :
    ∃ fs₂,
      postUpload fsDemo ["w".data] ["w".data]
          ([⟨"0".data, "u1".data, [], [[1], [2]], none⟩] ++
            (⟨"0".data, "u2".data, [], [[3]], some 0⟩ : FormField) ::
            [⟨"0".data, "u3".data, [], [[4]], none⟩]) =
        (.report ([(⟨"0".data, "u1".data, [], [[1], [2]], none⟩ : FormField)].map
            (fun f => .success f.filename) ++
          [.failed "u2".data]), fs₂, true) ∧
      (∀ f ∈ [(⟨"0".data, "u1".data, [], [[1], [2]], none⟩ : FormField)],
        lookupFS fs₂ (["w".data] ++ [fileSeg f]) =
          some (Node.file f.chunks.flatten)) ∧
      lookupFS fs₂ (["w".data] ++
        [fileSeg (⟨"0".data, "u2".data, [], [[3]], some 0⟩ : FormField)]) = none ∧
      (∀ q : AbsPath,
        (∀ f ∈ [(⟨"0".data, "u1".data, [], [[1], [2]], none⟩ : FormField)] ++
            [(⟨"0".data, "u2".data, [], [[3]], some 0⟩ : FormField)],
          q ≠ ["w".data] ++ [fileSeg f]) →
        lookupFS fs₂ q = lookupFS fsDemo q) :=
  upload_partial_failure ["w".data] ["w".data] fsDemo
    [⟨"0".data, "u1".data, [], [[1], [2]], none⟩]
    ⟨"0".data, "u2".data, [], [[3]], some 0⟩
    [⟨"0".data, "u3".data, [], [[4]], none⟩]
    (by decide) (by decide) (by decide) (by decide) (by decide) (by decide)
    (by decide) (by decide) (by decide) (by decide)
